import Mathlib

/-!
# Verification of `examples/applies.py` (implicit job-recommendation pipeline)

Shallow embedding of the batch pipeline in `examples/applies.py`:
reading a CSV of (user, job, applies) triples, building a sparse
item×user interaction matrix via pandas categorical encoding and
`scipy.sparse.coo_matrix`, optionally BM25-weighting it for ALS-family
models, fitting a pluggable model, and generating either a
similar-items report or a per-user recommendation report.

Counts and matrix values are modelled as rationals (the script casts to
`numpy.float32`; none of the verified properties depend on rounding).
The concrete models of the `implicit` library (`fit` / `similar_items` /
`recommend`) live outside the pipeline; they are parameters of the
embedded pipeline functions, exactly as the script treats them as
opaque capabilities.  The transcendental logarithm used by the BM25
weighting is likewise an explicit parameter `lg`; all results are
either independent of it or quantified over it.
-/

namespace Applies

/-! ## Data loader (`read_data`, lines 54-72) -/

/-- A parsed row of the CSV: `user,job,applies`
(`names=['user', 'job', 'applies']`). -/
structure Record where
  user : String
  job : String
  applies : ℚ
deriving Repr, DecidableEq

/-- Split a character list at every occurrence of `sep`
(the CSV tokenizer for `sep=','`; `String.splitOn` for one-character
separators). -/
def splitChar (sep : Char) : List Char → List (List Char)
  | [] => [[]]
  | c :: cs =>
    if c = sep then [] :: splitChar sep cs
    else
      match splitChar sep cs with
      | [] => [[c]]
      | f :: rest => (c :: f) :: rest

/-- Whitespace characters `float()` strips from both ends of its
argument (the ASCII ones). -/
def isPySpace (c : Char) : Bool :=
  c = ' ' || c = '\t' || c = '\n' || c = '\r' || c = '\x0b' || c = '\x0c'

/-- Both-ends whitespace strip performed by `float()`. -/
def trimPy (cs : List Char) : List Char :=
  ((cs.dropWhile isPySpace).reverse.dropWhile isPySpace).reverse

/-- Optional leading sign: whether it is a minus, and the rest. -/
def splitSign : List Char → Bool × List Char
  | '-' :: rest => (true, rest)
  | '+' :: rest => (false, rest)
  | cs => (false, cs)

/-- Tail of a Python `digitpart` after its first digit: digits with
single underscores allowed strictly between digits. -/
def validDigitsU : List Char → Bool
  | [] => true
  | '_' :: [] => false
  | '_' :: c :: rest => c.isDigit && validDigitsU rest
  | c :: rest => c.isDigit && validDigitsU rest

/-- A Python `digitpart`: nonempty, starts with a digit, single
underscores only between digits (so `1_000` is valid, `_1`, `1_` and
`1__0` are not). -/
def validDigitPart (cs : List Char) : Bool :=
  match cs with
  | [] => false
  | c :: rest => c.isDigit && validDigitsU rest

/-- Numeric value of a digit part, underscores ignored. -/
def digitsVal (cs : List Char) : ℕ :=
  (cs.filter (fun c => c ≠ '_')).foldl (fun acc c => acc * 10 + (c.toNat - 48)) 0

/-- Number of digits of a digit part, underscores ignored. -/
def numDigits (cs : List Char) : ℕ := (cs.filter (fun c => c ≠ '_')).length

/-- Split at the first character satisfying `p` (dropping it), when
there is one. -/
def splitFirst (p : Char → Bool) (cs : List Char) : List Char × Option (List Char) :=
  let pre := cs.takeWhile (fun c => !(p c))
  match cs.dropWhile (fun c => !(p c)) with
  | [] => (pre, none)
  | _ :: post => (pre, some post)

/-- Value of a Python float mantissa: `digitpart`, `digitpart '.'`,
`'.' digitpart` or `digitpart '.' digitpart`; `none` when invalid. -/
def pyMantissaVal? (mant : List Char) : Option ℚ :=
  match splitFirst (fun c => c = '.') mant with
  | (ip, none) =>
    if validDigitPart ip then some ((digitsVal ip : ℚ)) else none
  | (ip, some fp) =>
    if fp.any (fun c => c = '.') then none
    else if (ip = [] || validDigitPart ip) && (fp = [] || validDigitPart fp)
        && !(ip = [] && fp = []) then
      some ((digitsVal ip : ℚ) + (digitsVal fp : ℚ) / 10 ^ numDigits fp)
    else none

/-- Value of an unsigned Python float numeric body: a mantissa with an
optional decimal exponent `e`/`E` `sign? digitpart`; exact in ℚ. -/
def pyBodyVal? (body : List Char) : Option ℚ :=
  match splitFirst (fun c => c = 'e' || c = 'E') body with
  | (mant, none) => pyMantissaVal? mant
  | (mant, some ex) =>
    match pyMantissaVal? mant with
    | none => none
    | some m =>
      let se := splitSign ex
      if validDigitPart se.2 then
        some (if se.1 then m / 10 ^ digitsVal se.2 else m * 10 ^ digitsVal se.2)
      else none

/-- Case-insensitive `inf` / `infinity` / `nan`, the non-finite forms
`float()` accepts. -/
def isInfNan (body : List Char) : Bool :=
  body.map Char.toLower = ['i', 'n', 'f']
    || body.map Char.toLower = ['i', 'n', 'f', 'i', 'n', 'i', 't', 'y']
    || body.map Char.toLower = ['n', 'a', 'n']

/-- Success test of the float conversion that
`data['applies'].astype(numpy.float32)` applies to a cell: Python
`float()` syntax — optional surrounding whitespace and sign, then
either a decimal literal (underscore-grouped digit parts, optional
fraction, optional decimal exponent, so `1e5`, `' 3'`, `1_000.5`, `.5`
and `3.` all convert) or a case-insensitive `inf`/`infinity`/`nan`
(modelling the ASCII forms).  The cast raises `ValueError` exactly when
this test fails, e.g. on the empty string or non-numeric text. -/
def float_accepts (s : String) : Bool :=
  let sb := splitSign (trimPy s.data)
  isInfNan sb.2 || (pyBodyVal? sb.2).isSome

/-- Exact rational value of a finite Python float literal; `none` for
the non-finite forms (`inf`/`nan`, which convert successfully but have
no rational value) and for strings `float()` rejects. -/
def parseFloatQ (s : String) : Option ℚ :=
  let sb := splitSign (trimPy s.data)
  match pyBodyVal? sb.2 with
  | some q => some (if sb.1 then -q else q)
  | none => none

/-- Cells of one line, per `pandas.read_csv(..., sep=',')`. -/
def fieldsOf (line : String) : List String :=
  (splitChar ',' line.data).map String.mk

/-- The third cell of a line; a short row is padded with the empty
string (`na_filter=False` keeps missing/empty cells as `''`). -/
def appliesCell (line : String) : String := (fieldsOf line).getD 2 ""

/-- The record one nonblank CSV line contributes to the data frame.  A
count converting to a non-finite float (`inf`/`nan`) is represented by
the rational 0: no verified statement depends on a count's value at
such an input, only on the loader not raising there. -/
def recordOfLine (l : String) : Record :=
  { user := (fieldsOf l).getD 0 ""
    job := (fieldsOf l).getD 1 ""
    applies := (parseFloatQ (appliesCell l)).getD 0 }

/-- The loader `read_data` (lines 54-72): parse the CSV into a data frame.
`read_csv` skips blank lines and raises `EmptyDataError` on an empty
file and `ParserError` on a row with more cells than the three given
names; `data['applies'].astype(numpy.float32)` raises `ValueError` as
soon as one count cell fails the float conversion (`float_accepts`).
There is no defaulting of counts anywhere. -/
def read_data (input : List String) : Except String (List Record) :=
  let rows := input.filter (· ≠ "")
  if rows = [] then
    .error "EmptyDataError: No columns to parse from file"
  else if rows.any (fun l => 3 < (fieldsOf l).length) then
    .error "ParserError: Too many columns"
  else if rows.all (fun l => float_accepts (appliesCell l)) then
    .ok (rows.map recordOfLine)
  else
    .error "ValueError: could not convert string to float"

/-! ## Categorical encoding (`astype("category")`, `cat.codes`, `cat.categories`) -/

/-- Code-point lexicographic order on character lists (Python string
comparison, used by pandas when sorting string categories). -/
def lexLe : List Char → List Char → Bool
  | [], _ => true
  | _ :: _, [] => false
  | a :: as, b :: bs =>
    if a.toNat < b.toNat then true
    else if b.toNat < a.toNat then false
    else lexLe as bs

/-- Lexicographic order on strings. -/
def strLe (a b : String) : Prop := lexLe a.data b.data = true

instance : DecidableRel strLe := fun a b => by
  unfold strLe; infer_instance

/-- Categories of a string column, `Series.astype("category").cat.categories`: the distinct labels,
sorted lexicographically (pandas sorts string categories). -/
def categories (xs : List String) : List String :=
  List.insertionSort strLe xs.dedup

/-- Code (`cat.codes`) of one label: its position in the category list. -/
def codeOf (xs : List String) (x : String) : ℕ :=
  (categories xs).indexOf x

/-- User category list of the data frame (`df['user'].cat.categories`). -/
def userCats (df : List Record) : List String := categories (df.map (·.user))

/-- Job category list of the data frame (`df['job'].cat.categories`). -/
def jobCats (df : List Record) : List String := categories (df.map (·.job))

/-! ## Sparse matrices

A sparse matrix is its list of stored entries `(row, col, value)`, in
storage order.  `coo_matrix` keeps one entry per input record
(duplicates and explicit zeros included); `tocsr()` coalesces
duplicates by summing and orders entries by row then column. -/

/-- A stored entry `(row, col, value)`. -/
abbrev Entry : Type := ℕ × ℕ × ℚ

/-- Entries of `coo_matrix((data['applies'], (data['job'].cat.codes, data['user'].cat.codes)))`:
one entry per record, rows = job codes, cols = user codes. -/
def cooEntries (df : List Record) : List Entry :=
  df.map (fun r => ((jobCats df).indexOf r.job, (userCats df).indexOf r.user, r.applies))

/-- Row count of the coo matrix: scipy infers `max row index + 1`
(meaningful for the nonempty matrices the loader produces). -/
def cooRows (es : List Entry) : ℕ :=
  (es.map (·.1)).foldr max 0 + 1

/-- The `(row, col)` position of an entry. -/
def pairKey (e : Entry) : ℕ × ℕ := (e.1, e.2.1)

/-- Row-major order on positions. -/
def keyLe (a b : ℕ × ℕ) : Prop :=
  a.1 < b.1 ∨ (a.1 = b.1 ∧ a.2 ≤ b.2)

instance : DecidableRel keyLe := fun a b => by
  unfold keyLe; infer_instance

/-- Sum of the stored values at one position (0 when nothing stored). -/
def valueAt (es : List Entry) (p : ℕ × ℕ) : ℚ :=
  ((es.filter (fun e => pairKey e = p)).map (fun e => e.2.2)).sum

/-- Conversion `tocsr()`: one entry per distinct position, duplicates summed,
entries in row-major order. -/
def tocsr (es : List Entry) : List Entry :=
  (List.insertionSort keyLe (es.map pairKey).dedup).map
    (fun p => (p.1, p.2, valueAt es p))

/-- Transposition `.T`: swap rows and columns of every stored entry. -/
def transposeEntries (es : List Entry) : List Entry :=
  es.map (fun e => (e.2.1, e.1, e.2.2))

/-- Row slice `M[r].indices`: the stored column indices of row `r` (for a csr
matrix, in ascending order). -/
def rowIndices (es : List Entry) (r : ℕ) : List ℕ :=
  (es.filter (fun e => e.1 = r)).map (fun e => e.2.1)

/-! ## BM25 weighting -/

/-- Modelled from the spec: `bm25_weight` is imported from
`implicit.nearest_neighbours`, whose source is not part of this tree.
The spec describes it as "a BM25-style formula parameterized by two
tunables (saturation constant K1, length-normalization constant B)"
(§4.2), a "saturating frequency-weighting transform borrowed from text
retrieval" (glossary), preserving shape and non-zero pattern.  This is
the canonical BM25 document weighting of a sparse matrix: per-column
idf `lg N - lg (1 + column entry count)`, per-row length norm
`(1-B) + B·rowSum/averageRowSum`, and each stored value `x` rescaled to
`x·(K1+1) / (K1·lengthNorm + x) · idf`.  The logarithm `lg` is a
parameter; the results below hold for an arbitrary `lg`. -/
def bm25_weight (lg : ℚ → ℚ) (K1 B : ℚ) (es : List Entry) : List Entry :=
  let N : ℚ := (cooRows es : ℚ)
  let idf : ℕ → ℚ := fun c => lg N - lg (1 + ((es.filter (fun e => e.2.1 = c)).length : ℚ))
  let rowSum : ℕ → ℚ := fun r => ((es.filter (fun e => e.1 = r)).map (fun e => e.2.2)).sum
  let average_length : ℚ := ((es.map (fun e => e.2.2)).sum) / N
  let length_norm : ℕ → ℚ := fun r => (1 - B) + B * rowSum r / average_length
  es.map (fun e =>
    (e.1, e.2.1, e.2.2 * (K1 + 1) / (K1 * length_norm e.1 + e.2.2) * idf e.2.1))

/-! ## Model registry and factory (`MODELS`, `get_model`, lines 25-51) -/

/-- The concrete classes named in the `MODELS` dict. -/
inductive ModelClass
  | alternatingLeastSquares
  | nmslibALS
  | annoyALS
  | faissALS
  | tfidfRecommender
  | cosineRecommender
  | bayesianPersonalizedRanking
  | bm25Recommender
deriving DecidableEq, Repr

/-- The `MODELS` registry (lines 25-32), in source order. -/
def MODELS : List (String × ModelClass) :=
  [("als", .alternatingLeastSquares),
   ("nmslib_als", .nmslibALS),
   ("annoy_als", .annoyALS),
   ("faiss_als", .faissALS),
   ("tfidf", .tfidfRecommender),
   ("cosine", .cosineRecommender),
   ("bpr", .bayesianPersonalizedRanking),
   ("bm25", .bm25Recommender)]

/-- Modelled from the spec: `issubclass(·, AlternatingLeastSquares)`.
The class hierarchy lives in the `implicit` library, outside this tree;
per §4.3/§4.8 the factorization (ALS) family is the plain ALS model and
its three approximate-index variants, which subclass it, while the
neighborhood models and the ranking-loss (BPR) model do not. -/
def isALSClass : ModelClass → Bool
  | .alternatingLeastSquares => true
  | .nmslibALS => true
  | .annoyALS => true
  | .faissALS => true
  | _ => false

/-- A constructed model object: its class, the keyword arguments of the
constructor call, and the `approximate_recommend` attribute (set only
by the pipeline's ALS branch; `none` = untouched). -/
structure Model where
  cls : ModelClass
  params : List (String × String)
  approximate_recommend : Option Bool
deriving Repr, DecidableEq

/-- The factory `get_model` (lines 36-51): registry lookup, `ValueError` on a
missing name, then variant-specific default hyperparameters. -/
def get_model (model_name : String) : Except String Model :=
  match MODELS.lookup model_name with
  | none => .error ("Unknown Model '" ++ model_name ++ "'")
  | some model_class =>
    let params : List (String × String) :=
      if isALSClass model_class then
        [("factors", "64"), ("dtype", "float32"), ("use_gpu", "False")]
      else if model_name = "bm25" then
        [("K1", "100"), ("B", "0.5")]
      else if model_name = "bpr" then
        [("factors", "63"), ("use_gpu", "False")]
      else []
    .ok { cls := model_class, params := params, approximate_recommend := none }

/-- The `__main__` block (lines 162-185): the repeated `--param KEY=VALUE`
arguments are collected into `args.param` but never referenced again;
`calculate_similar_jobs` / `calculate_recommendations` receive only
`args.model`, so the model that gets built is `get_model args.model`
regardless of the overrides. -/
def mainModel (model_name : String) (_paramArgs : List String) : Except String Model :=
  get_model model_name

/-! ## Similarity report (`calculate_similar_jobs`, lines 75-114) -/

/-- Popularity `df.groupby('job').size()[jid]`: the number of input rows whose job
is category `jid` (positional indexing into the groupby result, whose
categorical index is in category order). -/
def popularity (df : List Record) (jid : ℕ) : ℕ :=
  (df.filter (fun r => r.job = (jobCats df).getD jid "")).length

/-- Visit order `sorted(list(jobs), key=lambda x: -user_count[x])` (line 103): all
job codes, stably sorted by descending popularity. -/
def to_generate (df : List Record) : List ℕ :=
  List.insertionSort (fun a b => popularity df b ≤ popularity df a)
    (List.range (jobCats df).length)

/-- Rendering `str(score)` of a float score (opaque; no verified
property depends on its digits). -/
def scoreRepr (q : ℚ) : String := toString q

/-- One similarity line `"%s\t%s\t%s\n" % (job, jobs[other], score)`
(modelled without the terminal newline: `written` is the list of lines
of the output file). -/
def simLine (job other : String) (score : ℚ) : String :=
  job ++ "\t" ++ other ++ "\t" ++ scoreRepr score

/-- One recommendation line `"%s\t%s\t%s\n" % (username, jobs[jobid], score)`. -/
def recLine (user job : String) (score : ℚ) : String :=
  user ++ "\t" ++ job ++ "\t" ++ scoreRepr score

/-- The separator line `"Applies for user %s\n" % username`. -/
def markerLine (user : String) : String := "Applies for user " ++ user

/-- Externally observable pipeline steps, for the error-handling
claims: the input file was read; the matrix was BM25-weighted;
`model.fit` ran; the output file was opened for writing. -/
inductive Ev
  | readInput
  | weighted
  | fitted
  | openedOutput
deriving DecidableEq, Repr

deriving instance DecidableEq for Except

/-- Outcome of one run: the observable events in order, the csr matrix
passed to `model.fit`, the model object at fit time, the lines of the
output file, and normal or exceptional termination. -/
structure Run where
  events : List Ev
  fitInput : Option (List Entry)
  fitModel : Option Model
  written : List String
  outcome : Except String Unit
deriving DecidableEq

/-- Unguarded `o.write` loop: lines are written until the first line
the sink rejects, whose failure propagates (aborting whatever output
remained). -/
def writeLoop (canWrite : String → Bool) : List String → List String × Except String Unit
  | [] => ([], .ok ())
  | l :: ls =>
    if canWrite l then
      let rest := writeLoop canWrite ls
      (l :: rest.1, rest.2)
    else ([], .error "UnicodeEncodeError")

/-- Similarity mode, `calculate_similar_jobs` (lines 75-114).  `canWrite` says which
formatted lines the encoder/sink accepts (the `try: o.write ... except:
pass` guard drops rejected lines and keeps going); `similar_items` is
the opaque trained-model query. -/
def calculate_similar_jobs (lg : ℚ → ℚ) (canWrite : String → Bool)
    (similar_items : ℕ → ℕ → List (ℕ × ℚ))
    (input : List String) (model_name : String) : Run :=
  match read_data input with
  | .error e => ⟨[], none, none, [], .error e⟩
  | .ok df =>
    match get_model model_name with
    | .error e => ⟨[.readInput], none, none, [], .error e⟩
    | .ok model0 =>
      let als := isALSClass model0.cls
      let applies0 := cooEntries df
      let applies1 := if als then bm25_weight lg 100 (4/5) applies0 else applies0
      let model1 := if als then { model0 with approximate_recommend := some false } else model0
      let appliesCsr := tocsr applies1
      let jobs : ℕ → String := fun j => (jobCats df).getD j ""
      let lines := (to_generate df).flatMap (fun jid =>
        (similar_items jid 11).filterMap (fun os =>
          let line := simLine (jobs jid) (jobs os.1) os.2
          if canWrite line then some line else none))
      ⟨[.readInput] ++ (if als then [.weighted] else []) ++ [.fitted, .openedOutput],
        some appliesCsr, some model1, lines, .ok ()⟩

/-- Recommendation mode, `calculate_recommendations` (lines 117-157).  `recommend` is the
opaque trained-model query, applied to the user id and the transposed
csr matrix `user_applies`; its `o.write` calls are unguarded. -/
def calculate_recommendations (lg : ℚ → ℚ) (canWrite : String → Bool)
    (recommend : ℕ → List Entry → List (ℕ × ℚ))
    (input : List String) (model_name : String) : Run :=
  match read_data input with
  | .error e => ⟨[], none, none, [], .error e⟩
  | .ok df =>
    match get_model model_name with
    | .error e => ⟨[.readInput], none, none, [], .error e⟩
    | .ok model0 =>
      let als := isALSClass model0.cls
      let applies0 := cooEntries df
      let applies1 := if als then bm25_weight lg 100 (4/5) applies0 else applies0
      let model1 := if als then { model0 with approximate_recommend := some false } else model0
      let appliesCsr := tocsr applies1
      let jobs : ℕ → String := fun j => (jobCats df).getD j ""
      let user_applies := tocsr (transposeEntries appliesCsr)
      let lines := (userCats df).enum.flatMap (fun uu =>
        ((recommend uu.1 user_applies).map (fun js => recLine uu.2 (jobs js.1) js.2))
        ++ [markerLine uu.2]
        ++ ((rowIndices user_applies uu.1).map jobs))
      let wres := writeLoop canWrite lines
      ⟨[.readInput] ++ (if als then [.weighted] else []) ++ [.fitted, .openedOutput],
        some appliesCsr, some model1, wres.1, wres.2⟩

/-! ## Lemmas: categorical encoding -/

theorem mem_categories {xs : List String} {x : String} : x ∈ categories xs ↔ x ∈ xs := by
  rw [categories, (List.perm_insertionSort _ _).mem_iff, List.mem_dedup]

theorem nodup_categories (xs : List String) : (categories xs).Nodup :=
  ((List.perm_insertionSort _ _).nodup_iff).2 xs.nodup_dedup

theorem indexOf_categories_lt {xs : List String} {x : String} (h : x ∈ xs) :
    (categories xs).indexOf x < (categories xs).length :=
  List.indexOf_lt_length.2 (mem_categories.2 h)

theorem getD_categories_indexOf {xs : List String} {x : String} (h : x ∈ xs) (d : String) :
    (categories xs).getD ((categories xs).indexOf x) d = x := by
  have hlt := indexOf_categories_lt h
  rw [List.getD_eq_getElem?_getD, List.getElem?_eq_getElem hlt, Option.getD_some,
    List.getElem_indexOf hlt]

theorem indexOf_categories_getD {xs : List String} {i : ℕ}
    (h : i < (categories xs).length) (d : String) :
    (categories xs).indexOf ((categories xs).getD i d) = i := by
  rw [List.getD_eq_getElem?_getD, List.getElem?_eq_getElem h, Option.getD_some]
  exact List.indexOf_getElem (nodup_categories xs) i h

theorem getD_jobCats_indexOf {df : List Record} {r : Record} (hr : r ∈ df) :
    (jobCats df).getD ((jobCats df).indexOf r.job) "" = r.job :=
  getD_categories_indexOf (List.mem_map_of_mem _ hr) ""

theorem getD_userCats_indexOf {df : List Record} {r : Record} (hr : r ∈ df) :
    (userCats df).getD ((userCats df).indexOf r.user) "" = r.user :=
  getD_categories_indexOf (List.mem_map_of_mem _ hr) ""

theorem indexOf_userCats_getD {df : List Record} {uid : ℕ}
    (huid : uid < (userCats df).length) :
    (userCats df).indexOf ((userCats df).getD uid "") = uid :=
  indexOf_categories_getD huid ""

/-! ## Lemmas: sparse matrices -/

theorem map_pairKey_tocsr (es : List Entry) :
    (tocsr es).map pairKey = List.insertionSort keyLe (es.map pairKey).dedup := by
  rw [tocsr, List.map_map]
  have h : (pairKey ∘ fun p : ℕ × ℕ => ((p.1, p.2, valueAt es p) : Entry)) = id := by
    funext p; rfl
  rw [h, List.map_id]

theorem mem_map_pairKey_tocsr {es : List Entry} {p : ℕ × ℕ} :
    p ∈ (tocsr es).map pairKey ↔ p ∈ es.map pairKey := by
  rw [map_pairKey_tocsr, (List.perm_insertionSort _ _).mem_iff, List.mem_dedup]

theorem nodup_map_pairKey_tocsr (es : List Entry) : ((tocsr es).map pairKey).Nodup := by
  rw [map_pairKey_tocsr]
  exact ((List.perm_insertionSort _ _).nodup_iff).2 (es.map pairKey).nodup_dedup

theorem valueAt_eq_zero {es : List Entry} {p : ℕ × ℕ} (h : p ∉ es.map pairKey) :
    valueAt es p = 0 := by
  rw [valueAt]
  have hnil : es.filter (fun e => pairKey e = p) = [] := by
    rw [List.filter_eq_nil_iff]
    intro e he hpe
    exact h (List.mem_map.2 ⟨e, he, by simpa using hpe⟩)
  simp [hnil]

theorem filter_eq_singleton_of_nodup {α : Type _} [DecidableEq α] :
    ∀ {l : List α}, l.Nodup → ∀ a : α,
      l.filter (fun b => b = a) = if a ∈ l then [a] else [] := by
  intro l hl a
  induction l with
  | nil => simp
  | cons x l ih =>
    rcases List.nodup_cons.1 hl with ⟨hx, hl'⟩
    by_cases hxa : x = a
    · subst hxa
      simp [List.filter_cons, hx, ih hl', List.mem_cons]
    · have hax : ¬(a = x) := fun h => hxa h.symm
      simp [List.filter_cons, hxa, ih hl', List.mem_cons, hax]

theorem valueAt_tocsr (es : List Entry) (p : ℕ × ℕ) : valueAt (tocsr es) p = valueAt es p := by
  set L := List.insertionSort keyLe (es.map pairKey).dedup with hL
  have hnodup : L.Nodup := ((List.perm_insertionSort _ _).nodup_iff).2 (es.map pairKey).nodup_dedup
  have hmem : p ∈ L ↔ p ∈ es.map pairKey := by
    rw [hL, (List.perm_insertionSort _ _).mem_iff, List.mem_dedup]
  rw [valueAt, tocsr, ← hL]
  have hfm : (L.map fun q : ℕ × ℕ => ((q.1, q.2, valueAt es q) : Entry)).filter
      (fun e => pairKey e = p) =
      (L.filter (fun q => q = p)).map fun q : ℕ × ℕ => ((q.1, q.2, valueAt es q) : Entry) := by
    rw [List.filter_map]
    rfl
  rw [hfm, filter_eq_singleton_of_nodup hnodup p]
  by_cases hp : p ∈ L
  · simp [hp]
  · have : valueAt es p = 0 := valueAt_eq_zero (fun h => hp (hmem.2 h))
    simp [hp, this]

theorem map_pairKey_bm25 (lg : ℚ → ℚ) (K1 B : ℚ) (es : List Entry) :
    (bm25_weight lg K1 B es).map pairKey = es.map pairKey := by
  simp only [bm25_weight, List.map_map]
  rfl

theorem mem_map_pairKey_transpose {es : List Entry} {p : ℕ × ℕ} :
    p ∈ (transposeEntries es).map pairKey ↔ (p.2, p.1) ∈ es.map pairKey := by
  simp only [transposeEntries, pairKey, List.map_map, List.mem_map, Function.comp]
  constructor
  · rintro ⟨e, he, rfl⟩
    exact ⟨e, he, rfl⟩
  · rintro ⟨e, he, hp⟩
    refine ⟨e, he, ?_⟩
    have h1 : e.1 = p.2 := congrArg Prod.fst hp
    have h2 : e.2.1 = p.1 := congrArg Prod.snd hp
    simp [h1, h2]

theorem mem_rowIndices {es : List Entry} {r j : ℕ} :
    j ∈ rowIndices es r ↔ (r, j) ∈ es.map pairKey := by
  simp only [rowIndices, List.mem_map, List.mem_filter, pairKey, Prod.mk.injEq]
  constructor
  · rintro ⟨e, ⟨he, hr⟩, hj⟩
    exact ⟨e, he, by simpa using hr, hj⟩
  · rintro ⟨e, he, hr, hj⟩
    exact ⟨e, ⟨he, by simpa using hr⟩, hj⟩

theorem nodup_rowIndices_tocsr (es : List Entry) (r : ℕ) : (rowIndices (tocsr es) r).Nodup := by
  have hpairs : ((tocsr es).map pairKey).Nodup := nodup_map_pairKey_tocsr es
  have hinj := List.inj_on_of_nodup_map hpairs
  have hent : (tocsr es).Nodup := hpairs.of_map pairKey
  have hfil : ((tocsr es).filter (fun e => e.1 = r)).Nodup := hent.filter _
  refine hfil.map_on ?_
  intro a ha b hb hab
  have har : a.1 = r := by simpa using (List.mem_filter.1 ha).2
  have hbr : b.1 = r := by simpa using (List.mem_filter.1 hb).2
  exact hinj (List.mem_of_mem_filter ha) (List.mem_of_mem_filter hb)
    (by simp [pairKey, Prod.ext_iff, har, hbr, hab])

/-! ## Lemmas: report generation -/

theorem writeLoop_eq (canWrite : String → Bool) (ls : List String) :
    writeLoop canWrite ls =
      (ls.takeWhile canWrite,
        if ls.all canWrite then Except.ok () else Except.error "UnicodeEncodeError") := by
  induction ls with
  | nil => rfl
  | cons l ls ih =>
    by_cases h : canWrite l <;>
      simp [writeLoop, h, ih, List.takeWhile_cons, List.all_cons]

theorem writeLoop_top (ls : List String) : writeLoop (fun _ => true) ls = (ls, .ok ()) := by
  rw [writeLoop_eq]
  simp

theorem filterMap_guard {α : Type _} (f : α → String) (cw : String → Bool) (l : List α) :
    (l.filterMap (fun a => if cw (f a) then some (f a) else none)) = (l.map f).filter cw := by
  induction l with
  | nil => rfl
  | cons a l ih => by_cases h : cw (f a) <;> simp [h, ih]

theorem filter_flatMap {α β : Type _} (l : List α) (g : α → List β) (p : β → Bool) :
    (l.flatMap g).filter p = l.flatMap (fun a => (g a).filter p) := by
  induction l with
  | nil => rfl
  | cons a l ih => simp [List.flatMap_cons, List.filter_append, ih]

theorem to_generate_perm (df : List Record) :
    List.Perm (to_generate df) (List.range (jobCats df).length) :=
  List.perm_insertionSort _ _

theorem to_generate_sorted (df : List Record) :
    (to_generate df).Pairwise (fun a b => popularity df b ≤ popularity df a) := by
  haveI : IsTotal ℕ (fun a b => popularity df b ≤ popularity df a) :=
    ⟨fun a b => le_total _ _⟩
  haveI : IsTrans ℕ (fun a b => popularity df b ≤ popularity df a) :=
    ⟨fun a b c h1 h2 => le_trans h2 h1⟩
  exact List.sorted_insertionSort _ _

/-! ## Claim theorems -/

/-- C8: the repeated `--param KEY=VALUE` arguments are parsed into
`args.param` but never passed on: the constructed model is
`get_model args.model` whatever the overrides are, so "als" keeps its
default `factors=64` even when `factors=128` is requested.  (The code
contradicts its own `--param` help text, "Parameters to pass to the
model".) -/
theorem claim_C8_param_overrides_ignored :
    (∀ ps : List String, mainModel "als" ps = get_model "als") ∧
      mainModel "als" ["factors=128"] =
        .ok ⟨.alternatingLeastSquares,
          [("factors", "64"), ("dtype", "float32"), ("use_gpu", "False")], none⟩ :=
  ⟨fun _ => rfl, by decide⟩

/-- C4 (amended): an unrecognized model name makes the run fail with
`Unknown Model '<name>'`, but only after the input file has been read:
`read_data` runs first in both modes, so when it succeeds the
unknown-model failure leaves exactly the input-read event in the trace
— no weighting, no fit, and no output-file event. -/
theorem claim_C4_unknown_model_fails_after_read (lg : ℚ → ℚ) (canWrite : String → Bool)
    (si : ℕ → ℕ → List (ℕ × ℚ)) (rec : ℕ → List Entry → List (ℕ × ℚ))
    (input : List String) (name : String) (df : List Record)
    (hname : MODELS.lookup name = none) (hdf : read_data input = .ok df) :
    (calculate_similar_jobs lg canWrite si input name).outcome
        = .error ("Unknown Model '" ++ name ++ "'") ∧
      (calculate_similar_jobs lg canWrite si input name).events = [.readInput] ∧
      (calculate_recommendations lg canWrite rec input name).outcome
        = .error ("Unknown Model '" ++ name ++ "'") ∧
      (calculate_recommendations lg canWrite rec input name).events = [.readInput] := by
  have hgm : get_model name = .error ("Unknown Model '" ++ name ++ "'") := by
    rw [get_model, hname]
  simp [calculate_similar_jobs, calculate_recommendations, hdf, hgm]

/-- C4 (witness for the amended theorem) at `name = "foo"`. -/
theorem claim_C4_unknown_model_fails_after_read_witness :
    MODELS.lookup "foo" = none ∧
      (calculate_similar_jobs id (fun _ => true) (fun _ _ => []) ["u1,i1,3"] "foo").events
        = [Ev.readInput] :=
  ⟨by decide,
    (claim_C4_unknown_model_fails_after_read id (fun _ => true) (fun _ _ => [])
      (fun _ _ => []) ["u1,i1,3"] "foo" _ (by decide) rfl).2.1⟩

/-- C4 (counterexample to the claim as stated): with the unknown model
name "foo" the run does end in `Unknown Model 'foo'`, but the input has
already been read at that point — the input-read event is in the trace,
refuting "before any I/O is attempted, i.e. before any input data is
read". -/
theorem claim_C4_counterexample :
    (calculate_similar_jobs id (fun _ => true) (fun _ _ => []) ["u1,i1,3"] "foo").outcome
        = .error "Unknown Model 'foo'" ∧
      Ev.readInput ∈
        (calculate_similar_jobs id (fun _ => true) (fun _ _ => []) ["u1,i1,3"] "foo").events := by
  decide

/-- C5: with an unknown model name the run fails before any output file
is created: in both modes the trace has no output-file event and nothing
is written, whether or not the input itself was readable. -/
theorem claim_C5_no_output_on_unknown_model (lg : ℚ → ℚ) (canWrite : String → Bool)
    (si : ℕ → ℕ → List (ℕ × ℚ)) (rec : ℕ → List Entry → List (ℕ × ℚ))
    (input : List String) (name : String) (hname : MODELS.lookup name = none) :
    (∃ e, (calculate_similar_jobs lg canWrite si input name).outcome = .error e) ∧
      Ev.openedOutput ∉ (calculate_similar_jobs lg canWrite si input name).events ∧
      (calculate_similar_jobs lg canWrite si input name).written = [] ∧
      (∃ e, (calculate_recommendations lg canWrite rec input name).outcome = .error e) ∧
      Ev.openedOutput ∉ (calculate_recommendations lg canWrite rec input name).events ∧
      (calculate_recommendations lg canWrite rec input name).written = [] := by
  have hgm : get_model name = .error ("Unknown Model '" ++ name ++ "'") := by
    rw [get_model, hname]
  cases hread : read_data input with
  | error e => simp [calculate_similar_jobs, calculate_recommendations, hread]
  | ok df => simp [calculate_similar_jobs, calculate_recommendations, hread, hgm]

/-- C5 (witness) at `name = "foo"`. -/
theorem claim_C5_no_output_on_unknown_model_witness :
    MODELS.lookup "foo" = none ∧
      (calculate_similar_jobs id (fun _ => true) (fun _ _ => []) ["u1,i1,3"] "foo").written
        = [] :=
  ⟨by decide,
    (claim_C5_no_output_on_unknown_model id (fun _ => true) (fun _ _ => [])
      (fun _ _ => []) ["u1,i1,3"] "foo" (by decide)).2.2.1⟩

/-- C7 (amended): on inputs within the three-column format, the loader
is not total and defaults nothing: as soon as one nonblank line's count
cell (third field; the empty string when the row is short) fails the
`float()` conversion, `read_data` aborts with an error — the bad line
is neither skipped nor given a default count. -/
theorem claim_C7_loader_throws_on_bad_count (input : List String)
    (hwidth : ∀ l ∈ input, (fieldsOf l).length ≤ 3)
    (h : ∃ l ∈ input, l ≠ "" ∧ float_accepts (appliesCell l) = false) :
    ∃ e, read_data input = .error e := by
  obtain ⟨l, hl, hne, hp⟩ := h
  rw [read_data]
  have hrow : l ∈ input.filter (· ≠ "") := List.mem_filter.2 ⟨hl, by simpa using hne⟩
  have hnil : ¬(input.filter (· ≠ "") = []) := by
    intro h0
    rw [h0] at hrow
    exact absurd hrow (List.not_mem_nil l)
  rw [if_neg hnil]
  have htm : ¬((input.filter (· ≠ "")).any (fun l => 3 < (fieldsOf l).length) = true) := by
    intro hA
    rcases List.any_eq_true.1 hA with ⟨l', hl', hgt⟩
    have hle := hwidth l' (List.mem_of_mem_filter hl')
    have hgt' : 3 < (fieldsOf l').length := by simpa using hgt
    omega
  rw [if_neg htm]
  have hall :
      ¬((input.filter (· ≠ "")).all (fun l => float_accepts (appliesCell l)) = true) := by
    intro hA
    have := List.all_eq_true.1 hA _ hrow
    simp [hp] at this
  rw [if_neg hall]
  exact ⟨_, rfl⟩

/-- C7 (witness for the amended theorem) at the malformed line `u1,i1,xyz`. -/
theorem claim_C7_loader_throws_on_bad_count_witness :
    (∀ l ∈ ["u1,i1,xyz"], (fieldsOf l).length ≤ 3) ∧
      (∃ l ∈ ["u1,i1,xyz"], l ≠ "" ∧ float_accepts (appliesCell l) = false) ∧
      ∃ e, read_data ["u1,i1,xyz"] = .error e :=
  ⟨by decide, ⟨"u1,i1,xyz", by decide, by decide, by decide⟩,
    claim_C7_loader_throws_on_bad_count _ (by decide)
      ⟨"u1,i1,xyz", by decide, by decide, by decide⟩⟩

/-- C7 (counterexample to "never throws"): a malformed count cell and a
short row (missing count) both make `read_data` raise the float
conversion error rather than substituting a default. -/
theorem claim_C7_counterexample :
    read_data ["u1,i1,xyz"] = .error "ValueError: could not convert string to float" ∧
      read_data ["u1,i1"] = .error "ValueError: could not convert string to float" := by
  decide

/-- C3: in both modes, when the selected model is an ALS-family
(factorization) variant the matrix passed to `fit` is the BM25-weighted
one and the model's `approximate_recommend` flag has been set to
`False`; for every other registry model the transform is not applied —
`fit` receives the raw-count csr matrix — and the flag is untouched. -/
theorem claim_C3_bm25_and_approx_iff_als (lg : ℚ → ℚ) (canWrite : String → Bool)
    (si : ℕ → ℕ → List (ℕ × ℚ)) (rec : ℕ → List Entry → List (ℕ × ℚ))
    (input : List String) (name : String) (df : List Record) (m : Model)
    (hdf : read_data input = .ok df) (hm : get_model name = .ok m) :
    ((calculate_similar_jobs lg canWrite si input name).fitInput,
        (calculate_similar_jobs lg canWrite si input name).fitModel)
      = (if isALSClass m.cls then
            (some (tocsr (bm25_weight lg 100 (4/5) (cooEntries df))),
              some { m with approximate_recommend := some false })
          else (some (tocsr (cooEntries df)), some m)) ∧
      ((calculate_recommendations lg canWrite rec input name).fitInput,
        (calculate_recommendations lg canWrite rec input name).fitModel)
      = (if isALSClass m.cls then
            (some (tocsr (bm25_weight lg 100 (4/5) (cooEntries df))),
              some { m with approximate_recommend := some false })
          else (some (tocsr (cooEntries df)), some m)) := by
  cases hals : isALSClass m.cls <;>
    simp [calculate_similar_jobs, calculate_recommendations, hdf, hm, hals]

/-- C3 (witness) at `name = "cosine"` (non-ALS: raw counts, flag
untouched). -/
theorem claim_C3_bm25_and_approx_iff_als_witness :
    read_data ["u1,i1,3"] = .ok [recordOfLine "u1,i1,3"] ∧
      get_model "cosine" = .ok ⟨.cosineRecommender, [], none⟩ ∧
      ((calculate_similar_jobs id (fun _ => true) (fun _ _ => []) ["u1,i1,3"] "cosine").fitInput,
          (calculate_similar_jobs id (fun _ => true) (fun _ _ => []) ["u1,i1,3"] "cosine").fitModel)
        = (some (tocsr (cooEntries [recordOfLine "u1,i1,3"])),
            some ⟨.cosineRecommender, [], none⟩) :=
  ⟨rfl, rfl,
    (claim_C3_bm25_and_approx_iff_als id (fun _ => true) (fun _ _ => []) (fun _ _ => [])
      ["u1,i1,3"] "cosine" _ _ rfl rfl).1⟩

/-- C2: in similarity mode the source items visited are exactly the job
codes of the full item set, each exactly once (a permutation of
`range (jobCats df).length`), visited in non-increasing order of total
popularity (the per-job input row count `df.groupby('job').size()`),
and the report is the concatenation, in that visit order, of the lines
generated from `similar_items(jid, 11)`. -/
theorem claim_C2_similarity_visit_order (lg : ℚ → ℚ) (canWrite : String → Bool)
    (si : ℕ → ℕ → List (ℕ × ℚ))
    (input : List String) (name : String) (df : List Record) (m : Model)
    (hdf : read_data input = .ok df) (hm : get_model name = .ok m) :
    (calculate_similar_jobs lg canWrite si input name).written
        = (to_generate df).flatMap (fun jid =>
            (si jid 11).filterMap (fun os =>
              if canWrite (simLine ((jobCats df).getD jid "") ((jobCats df).getD os.1 "") os.2)
              then some (simLine ((jobCats df).getD jid "") ((jobCats df).getD os.1 "") os.2)
              else none)) ∧
      List.Perm (to_generate df) (List.range (jobCats df).length) ∧
      (to_generate df).Pairwise (fun a b => popularity df b ≤ popularity df a) := by
  refine ⟨?_, to_generate_perm df, to_generate_sorted df⟩
  cases hals : isALSClass m.cls <;>
    simp [calculate_similar_jobs, hdf, hm, hals]

/-- C2 (witness): two jobs, "i1" twice as popular as "i2", model
"cosine"; the visit order is job code 0 ("i1") then 1 ("i2"). -/
theorem claim_C2_similarity_visit_order_witness :
    get_model "cosine" = .ok ⟨.cosineRecommender, [], none⟩ ∧
      to_generate [recordOfLine "u1,i1,3", recordOfLine "u1,i2,4", recordOfLine "u2,i1,5"]
        = [0, 1] ∧
      List.Perm
        (to_generate [recordOfLine "u1,i1,3", recordOfLine "u1,i2,4", recordOfLine "u2,i1,5"])
        (List.range (jobCats [recordOfLine "u1,i1,3", recordOfLine "u1,i2,4",
          recordOfLine "u2,i1,5"]).length) :=
  ⟨rfl, by decide,
    (claim_C2_similarity_visit_order id (fun _ => true) (fun _ _ => [])
      ["u1,i1,3", "u1,i2,4", "u2,i1,5"] "cosine" _ _ rfl rfl).2.1⟩

/-- A job code is stored in a user's row of `user_applies`
(`applies.T.tocsr()[userid].indices`) exactly when some input record
has that user/job pair — for either branch of the weighting step. -/
theorem mem_userRow_iff (lg : ℚ → ℚ) (df : List Record) (als : Bool) (uid j : ℕ) :
    j ∈ rowIndices (tocsr (transposeEntries (tocsr (if als then
        bm25_weight lg 100 (4/5) (cooEntries df) else cooEntries df)))) uid ↔
      ∃ r ∈ df, (jobCats df).indexOf r.job = j ∧ (userCats df).indexOf r.user = uid := by
  have hX : (if als then bm25_weight lg 100 (4/5) (cooEntries df)
      else cooEntries df).map pairKey = (cooEntries df).map pairKey := by
    cases als
    · simp
    · simp [map_pairKey_bm25]
  rw [mem_rowIndices, mem_map_pairKey_tocsr,
    @mem_map_pairKey_transpose _ ((uid, j)), mem_map_pairKey_tocsr, hX]
  rw [cooEntries, List.map_map]
  constructor
  · intro hmem
    rcases List.mem_map.1 hmem with ⟨r, hr, hpr⟩
    exact ⟨r, hr, congrArg Prod.fst hpr, congrArg Prod.snd hpr⟩
  · rintro ⟨r, hr, hj, hu⟩
    refine List.mem_map.2 ⟨r, hr, ?_⟩
    show pairKey ((jobCats df).indexOf r.job, (userCats df).indexOf r.user, r.applies)
        = (j, uid)
    rw [pairKey]
    exact congrArg₂ Prod.mk hj hu

theorem history_matches_input (lg : ℚ → ℚ) (df : List Record) (als : Bool)
    (uid : ℕ) (huid : uid < (userCats df).length) (x : String) :
    (x ∈ (rowIndices (tocsr (transposeEntries (tocsr (if als then
            bm25_weight lg 100 (4/5) (cooEntries df) else cooEntries df)))) uid).map
          (fun j => (jobCats df).getD j "") ↔
      x ∈ (df.filter (fun r => r.user = (userCats df).getD uid "")).map (fun r => r.job)) := by
  constructor
  · intro hx
    rcases List.mem_map.1 hx with ⟨j, hj, rfl⟩
    rcases (mem_userRow_iff lg df als uid j).1 hj with ⟨r, hr, hjr, hur⟩
    refine List.mem_map.2 ⟨r, List.mem_filter.2 ⟨hr, ?_⟩, ?_⟩
    · have hgd := getD_userCats_indexOf hr
      rw [hur] at hgd
      rw [hgd]
      simp
    · rw [← hjr]
      exact (getD_jobCats_indexOf hr).symm
  · intro hx
    rcases List.mem_map.1 hx with ⟨r, hrf, rfl⟩
    rcases List.mem_filter.1 hrf with ⟨hr, hru⟩
    have hru' : r.user = (userCats df).getD uid "" := by simpa using hru
    have huidx : (userCats df).indexOf r.user = uid := by
      rw [hru']
      exact indexOf_userCats_getD huid
    exact List.mem_map.2 ⟨(jobCats df).indexOf r.job,
      (mem_userRow_iff lg df als uid _).2 ⟨r, hr, rfl, huidx⟩,
      getD_jobCats_indexOf hr⟩

/-- C1: in recommendation mode with an accepting sink, the report is,
for every user in encoding-table order, the block of lines from
`recommend(user, user_applies)`, then exactly one marker line for that
user, then one line per stored item of the user's transposed-matrix
row; and those history lines match, as a set of labels, exactly the
jobs appearing in that user's input rows. -/
theorem claim_C1_recommendation_blocks (lg : ℚ → ℚ)
    (rec : ℕ → List Entry → List (ℕ × ℚ))
    (input : List String) (name : String) (df : List Record) (m : Model)
    (hdf : read_data input = .ok df) (hm : get_model name = .ok m) :
    (calculate_recommendations lg (fun _ => true) rec input name).written
        = (userCats df).enum.flatMap (fun uu =>
            ((rec uu.1 (tocsr (transposeEntries (tocsr (if isALSClass m.cls then
                  bm25_weight lg 100 (4/5) (cooEntries df) else cooEntries df))))).map
                (fun js => recLine uu.2 ((jobCats df).getD js.1 "") js.2))
              ++ [markerLine uu.2]
              ++ ((rowIndices (tocsr (transposeEntries (tocsr (if isALSClass m.cls then
                    bm25_weight lg 100 (4/5) (cooEntries df) else cooEntries df)))) uu.1).map
                  (fun j => (jobCats df).getD j ""))) ∧
      (calculate_recommendations lg (fun _ => true) rec input name).outcome = .ok () ∧
      ∀ uid, uid < (userCats df).length →
        ∀ x, (x ∈ (rowIndices (tocsr (transposeEntries (tocsr (if isALSClass m.cls then
                bm25_weight lg 100 (4/5) (cooEntries df) else cooEntries df)))) uid).map
              (fun j => (jobCats df).getD j "") ↔
          x ∈ (df.filter (fun r => r.user = (userCats df).getD uid "")).map (fun r => r.job)) := by
  refine ⟨?_, ?_, fun uid huid x => history_matches_input lg df _ uid huid x⟩ <;>
    cases hals : isALSClass m.cls <;>
      simp [calculate_recommendations, hdf, hm, hals, writeLoop_top]

/-- C1 (witness): users "u1" (applied to i1) and "u2" (applied to i1),
model "cosine", no recommendations returned; u1's history labels are
exactly the items of u1's input rows. -/
theorem claim_C1_recommendation_blocks_witness :
    read_data ["u1,i1,3", "u2,i1,5"]
        = .ok [recordOfLine "u1,i1,3", recordOfLine "u2,i1,5"] ∧
      (calculate_recommendations id (fun _ => true) (fun _ _ => [])
          ["u1,i1,3", "u2,i1,5"] "cosine").outcome = .ok () ∧
      ∀ x,
        (x ∈ (rowIndices (tocsr (transposeEntries (tocsr
              (cooEntries [recordOfLine "u1,i1,3", recordOfLine "u2,i1,5"])))) 0).map
            (fun j => (jobCats [recordOfLine "u1,i1,3", recordOfLine "u2,i1,5"]).getD j "") ↔
          x ∈ ([recordOfLine "u1,i1,3", recordOfLine "u2,i1,5"].filter
              (fun r => r.user
                = (userCats [recordOfLine "u1,i1,3", recordOfLine "u2,i1,5"]).getD 0 "")).map
            (fun r => r.job)) :=
  ⟨rfl,
    (claim_C1_recommendation_blocks id (fun _ _ => []) ["u1,i1,3", "u2,i1,5"] "cosine"
      _ _ rfl rfl).2.1,
    (claim_C1_recommendation_blocks id (fun _ _ => []) ["u1,i1,3", "u2,i1,5"] "cosine"
      _ _ rfl rfl).2.2 0 (by decide)⟩

theorem indexOf_jobCats_getD {df : List Record} {j : ℕ}
    (h : j < (jobCats df).length) :
    (jobCats df).indexOf ((jobCats df).getD j "") = j :=
  indexOf_categories_getD h ""

theorem filterMap_some_comp {α β : Type _} (f : α → β) (l : List α) :
    l.filterMap (fun a => some (f a)) = l.map f := by
  induction l with
  | nil => rfl
  | cons a l ih => simp [ih]

theorem ite_ok_iff (c : Prop) [Decidable c] (e : String) :
    ((if c then Except.ok () else Except.error e) = (Except.ok () : Except String Unit)) ↔ c := by
  split_ifs with h <;> simp [h]

theorem takeWhile_top {α : Type _} (l : List α) : (l.takeWhile fun _ => true) = l := by
  induction l with
  | nil => rfl
  | cons a l ih => simp [List.takeWhile_cons, ih]

theorem all_top {α : Type _} (l : List α) : (l.all fun _ => true) = true := by
  induction l with
  | nil => rfl
  | cons a l ih => simp [List.all_cons, ih]

/-- The value `tocsr` stores for a raw coo matrix at a position is the
sum of the interaction counts of the records at that position. -/
theorem valueAt_cooEntries (df : List Record) (j u : ℕ) :
    valueAt (cooEntries df) (j, u)
      = ((df.filter (fun r => (jobCats df).indexOf r.job = j
          ∧ (userCats df).indexOf r.user = u)).map (fun r => r.applies)).sum := by
  have hpred : ∀ r ∈ df,
      ((fun e : Entry => decide (pairKey e = (j, u))) ∘ (fun r : Record =>
          (((jobCats df).indexOf r.job, (userCats df).indexOf r.user, r.applies) : Entry))) r
        = decide ((jobCats df).indexOf r.job = j ∧ (userCats df).indexOf r.user = u) := by
    intro r _
    exact decide_eq_decide.2 (by simp [pairKey, Prod.ext_iff])
  rw [valueAt, cooEntries, List.filter_map, List.filter_congr hpred, List.map_map]
  rfl

/-- The history lines of one user name pairwise-distinct jobs: the
user's csr row indices are distinct codes below the job-category count,
and distinct codes decode to distinct labels. -/
theorem history_labels_nodup (lg : ℚ → ℚ) (df : List Record) (als : Bool) (uid : ℕ) :
    ((rowIndices (tocsr (transposeEntries (tocsr (if als then
        bm25_weight lg 100 (4/5) (cooEntries df) else cooEntries df)))) uid).map
      (fun j => (jobCats df).getD j "")).Nodup := by
  have hnd := nodup_rowIndices_tocsr
    (transposeEntries (tocsr (if als then bm25_weight lg 100 (4/5) (cooEntries df)
      else cooEntries df))) uid
  refine hnd.map_on ?_
  intro j hj j' hj' hij
  have hlt : ∀ k, k ∈ rowIndices (tocsr (transposeEntries (tocsr (if als then
      bm25_weight lg 100 (4/5) (cooEntries df) else cooEntries df)))) uid →
      k < (jobCats df).length := by
    intro k hk
    rcases (mem_userRow_iff lg df als uid k).1 hk with ⟨r, hr, hjr, _⟩
    rw [← hjr]
    exact indexOf_categories_lt (List.mem_map_of_mem _ hr)
  calc j = (jobCats df).indexOf ((jobCats df).getD j "") :=
        (indexOf_jobCats_getD (hlt j hj)).symm
    _ = (jobCats df).indexOf ((jobCats df).getD j' "") := by rw [hij]
    _ = j' := indexOf_jobCats_getD (hlt j' hj')

/-- C6 (amended): only similarity mode treats a per-line failure as
local: a rejected line is dropped (the output is the accepting-sink
output filtered by the sink) and the run still ends normally.
Recommendation mode has no per-line guard: its output stops at the
first rejected line and the run ends normally iff every line is
accepted. -/
theorem claim_C6_per_line_failure_locality (lg : ℚ → ℚ) (canWrite : String → Bool)
    (si : ℕ → ℕ → List (ℕ × ℚ)) (rec : ℕ → List Entry → List (ℕ × ℚ))
    (input : List String) (name : String) (df : List Record) (m : Model)
    (hdf : read_data input = .ok df) (hm : get_model name = .ok m) :
    (calculate_similar_jobs lg canWrite si input name).written
        = ((calculate_similar_jobs lg (fun _ => true) si input name).written).filter canWrite ∧
      (calculate_similar_jobs lg canWrite si input name).outcome = .ok () ∧
      (calculate_recommendations lg canWrite rec input name).written
        = ((calculate_recommendations lg (fun _ => true) rec input name).written).takeWhile
            canWrite ∧
      ((calculate_recommendations lg canWrite rec input name).outcome = .ok ()
        ↔ ((calculate_recommendations lg (fun _ => true) rec input name).written).all
            canWrite) := by
  obtain ⟨lines, hkey⟩ : ∃ lines : List String, ∀ cw : String → Bool,
      (calculate_recommendations lg cw rec input name).written = lines.takeWhile cw ∧
        (calculate_recommendations lg cw rec input name).outcome
          = (if lines.all cw then Except.ok () else Except.error "UnicodeEncodeError") := by
    refine ⟨(userCats df).enum.flatMap (fun uu =>
      ((rec uu.1 (tocsr (transposeEntries (tocsr (if isALSClass m.cls then
          bm25_weight lg 100 (4/5) (cooEntries df) else cooEntries df))))).map
        (fun js => recLine uu.2 ((jobCats df).getD js.1 "") js.2))
      ++ [markerLine uu.2]
      ++ ((rowIndices (tocsr (transposeEntries (tocsr (if isALSClass m.cls then
          bm25_weight lg 100 (4/5) (cooEntries df) else cooEntries df)))) uu.1).map
        (fun j => (jobCats df).getD j ""))), fun cw => ?_⟩
    cases hals : isALSClass m.cls <;>
    · simp only [calculate_recommendations, hdf, hm, hals]
      rw [writeLoop_eq]
      exact ⟨rfl, rfl⟩
  refine ⟨?_, ?_, ?_, ?_⟩
  · cases hals : isALSClass m.cls <;>
      simp [calculate_similar_jobs, hdf, hm, hals,
        filter_flatMap, filterMap_guard, filterMap_some_comp]
  · cases hals : isALSClass m.cls <;>
      simp [calculate_similar_jobs, hdf, hm, hals]
  · rw [(hkey canWrite).1, (hkey (fun _ => true)).1, takeWhile_top]
  · rw [(hkey canWrite).2, (hkey (fun _ => true)).1, takeWhile_top, ite_ok_iff]

/-- C6 (witness for the amended theorem): an all-rejecting sink in
similarity mode still ends the run normally. -/
theorem claim_C6_per_line_failure_locality_witness :
    read_data ["u1,i1,3"] = .ok [recordOfLine "u1,i1,3"] ∧
      (calculate_similar_jobs id (fun _ => false) (fun _ _ => []) ["u1,i1,3"] "cosine").outcome
        = .ok () :=
  ⟨rfl,
    (claim_C6_per_line_failure_locality id (fun _ => false) (fun _ _ => []) (fun _ _ => [])
      ["u1,i1,3"] "cosine" _ _ rfl rfl).2.1⟩

/-- C6 (counterexample to locality in recommendation mode): with a sink
that rejects u1's marker line, the whole remaining report — including
u2's block, present under an accepting sink — is lost and the run ends
with the write error instead of continuing with the remaining users. -/
theorem claim_C6_counterexample :
    (calculate_recommendations id (fun l => l ≠ "Applies for user u1") (fun _ _ => [])
        ["u1,i1,3", "u2,i1,5"] "cosine").written = [] ∧
      (calculate_recommendations id (fun l => l ≠ "Applies for user u1") (fun _ _ => [])
        ["u1,i1,3", "u2,i1,5"] "cosine").outcome = .error "UnicodeEncodeError" ∧
      "Applies for user u2" ∈ (calculate_recommendations id (fun _ => true) (fun _ _ => [])
        ["u1,i1,3", "u2,i1,5"] "cosine").written := by
  decide

/-- C9 (amended): at `K1 = 0` the BM25 saturation factor collapses to 1
and the transform replaces every nonzero stored value by the idf of its
user column, `lg N - lg (1 + column entry count)` (a zero value stays
0), for any logarithm `lg`; values are not, in general, preserved. -/
theorem claim_C9_bm25_K1_zero_is_idf (lg : ℚ → ℚ) (B : ℚ) (es : List Entry) :
    bm25_weight lg 0 B es = es.map (fun e =>
      (e.1, e.2.1, if e.2.2 = 0 then 0
        else lg (cooRows es) - lg (1 + ((es.filter (fun x => x.2.1 = e.2.1)).length : ℚ)))) := by
  simp only [bm25_weight]
  refine List.map_congr_left ?_
  intro e _
  rcases eq_or_ne e.2.2 0 with h0 | h0
  · simp [h0]
  · rw [if_neg h0]
    simp [div_self h0]

/-- C9 (counterexample to "K1 = 0 leaves all values unchanged"): on a
2×2 matrix whose columns hold one entry each, every idf is
`lg 2 - lg 2 = 0` whatever the logarithm, so at `K1 = 0` the stored
values 3 and 5 are both replaced by 0. -/
theorem claim_C9_counterexample :
    bm25_weight id 0 (1/2) [(0, 0, 3), (1, 1, 5)] = [(0, 0, 0), (1, 1, 0)] ∧
      bm25_weight id 0 (1/2) [(0, 0, 3), (1, 1, 5)] ≠ [((0 : ℕ), (0 : ℕ), (3 : ℚ)), (1, 1, 5)] := by
  have h1 : bm25_weight id 0 (1/2) [(0, 0, 3), (1, 1, 5)] = [(0, 0, 0), (1, 1, 0)] := by
    norm_num [bm25_weight, cooRows, List.filter_cons, List.filter_nil]
  refine ⟨h1, ?_⟩
  rw [h1]
  norm_num

/-- C10 (amended): the fit matrix is the coalesced csr form — at most
one stored entry per (job, user) position, the value at a position
being the sum of the possibly-weighted values of the records there: the
raw interaction counts are summed for non-factorization models, while
ALS-family runs sum the BM25-weighted values; in every mode each
distinct item occurs at most once among a user's history lines. -/
theorem claim_C10_fit_matrix_coalesced (lg : ℚ → ℚ) (canWrite : String → Bool)
    (rec : ℕ → List Entry → List (ℕ × ℚ))
    (input : List String) (name : String) (df : List Record) (m : Model)
    (hdf : read_data input = .ok df) (hm : get_model name = .ok m) :
    (calculate_recommendations lg canWrite rec input name).fitInput
        = some (tocsr (if isALSClass m.cls then bm25_weight lg 100 (4/5) (cooEntries df)
            else cooEntries df)) ∧
      ((tocsr (if isALSClass m.cls then bm25_weight lg 100 (4/5) (cooEntries df)
          else cooEntries df)).map pairKey).Nodup ∧
      (∀ p, valueAt (tocsr (if isALSClass m.cls then bm25_weight lg 100 (4/5) (cooEntries df)
            else cooEntries df)) p
          = valueAt (if isALSClass m.cls then bm25_weight lg 100 (4/5) (cooEntries df)
              else cooEntries df) p) ∧
      (isALSClass m.cls = false → ∀ j u,
        valueAt (tocsr (cooEntries df)) (j, u)
          = ((df.filter (fun r => (jobCats df).indexOf r.job = j
              ∧ (userCats df).indexOf r.user = u)).map (fun r => r.applies)).sum) ∧
      ∀ uid, ((rowIndices (tocsr (transposeEntries (tocsr (if isALSClass m.cls then
          bm25_weight lg 100 (4/5) (cooEntries df) else cooEntries df)))) uid).map
          (fun j => (jobCats df).getD j "")).Nodup := by
  refine ⟨?_, nodup_map_pairKey_tocsr _, fun p => valueAt_tocsr _ p,
    fun _ j u => by rw [valueAt_tocsr, valueAt_cooEntries],
    fun uid => history_labels_nodup lg df _ uid⟩
  cases hals : isALSClass m.cls <;>
    simp [calculate_recommendations, hdf, hm, hals]

/-- C10 (witness for the amended theorem): model "cosine" on duplicated
rows `u1,i1,3` / `u1,i1,2`. -/
theorem claim_C10_fit_matrix_coalesced_witness :
    read_data ["u1,i1,3", "u1,i1,2"]
        = .ok [recordOfLine "u1,i1,3", recordOfLine "u1,i1,2"] ∧
      get_model "cosine" = .ok ⟨.cosineRecommender, [], none⟩ ∧
      ((tocsr (cooEntries [recordOfLine "u1,i1,3", recordOfLine "u1,i1,2"])).map
        pairKey).Nodup ∧
      valueAt (tocsr (cooEntries [recordOfLine "u1,i1,3", recordOfLine "u1,i1,2"])) (0, 0)
        = (([recordOfLine "u1,i1,3", recordOfLine "u1,i1,2"].filter (fun r =>
            (jobCats [recordOfLine "u1,i1,3", recordOfLine "u1,i1,2"]).indexOf r.job = 0
              ∧ (userCats [recordOfLine "u1,i1,3", recordOfLine "u1,i1,2"]).indexOf r.user
                  = 0)).map (fun r => r.applies)).sum ∧
      List.Nodup ((rowIndices (tocsr (transposeEntries (tocsr (cooEntries
            [recordOfLine "u1,i1,3", recordOfLine "u1,i1,2"])))) 0).map
          (fun j => (jobCats [recordOfLine "u1,i1,3", recordOfLine "u1,i1,2"]).getD j "")) :=
  ⟨rfl, rfl,
    (claim_C10_fit_matrix_coalesced id (fun _ => true) (fun _ _ => [])
      ["u1,i1,3", "u1,i1,2"] "cosine" _ _ rfl rfl).2.1,
    (claim_C10_fit_matrix_coalesced id (fun _ => true) (fun _ _ => [])
      ["u1,i1,3", "u1,i1,2"] "cosine" _ _ rfl rfl).2.2.2.1 rfl 0 0,
    (claim_C10_fit_matrix_coalesced id (fun _ => true) (fun _ _ => [])
      ["u1,i1,3", "u1,i1,2"] "cosine" _ _ rfl rfl).2.2.2.2 0⟩

/-- C10 (counterexample to "sum of the interaction counts"): in an ALS
run the BM25 weighting hits the duplicated coo entries before
coalescing, so the csr value is not the sum of the raw counts: with the
rows `u1,i1,3` and `u1,i1,2` duplicated, u1's idf is `lg 3 - lg 3 = 0`
whatever the logarithm, and the fit matrix stores 0 at position (0, 0)
= (job "i1", user "u1") while the interaction counts there sum to 5. -/
theorem claim_C10_counterexample :
    read_data ["u1,i1,3", "u1,i1,2", "u2,i2,5", "u2,i3,7"]
        = .ok [recordOfLine "u1,i1,3", recordOfLine "u1,i1,2", recordOfLine "u2,i2,5",
            recordOfLine "u2,i3,7"] ∧
      (jobCats [recordOfLine "u1,i1,3", recordOfLine "u1,i1,2", recordOfLine "u2,i2,5",
        recordOfLine "u2,i3,7"]).indexOf "i1" = 0 ∧
      (userCats [recordOfLine "u1,i1,3", recordOfLine "u1,i1,2", recordOfLine "u2,i2,5",
        recordOfLine "u2,i3,7"]).indexOf "u1" = 0 ∧
      (([recordOfLine "u1,i1,3", recordOfLine "u1,i1,2", recordOfLine "u2,i2,5",
          recordOfLine "u2,i3,7"].filter (fun r => r.job = "i1" ∧ r.user = "u1")).map
        (fun r => r.applies)).sum = 5 ∧
      valueAt ((calculate_recommendations id (fun _ => true) (fun _ _ => [])
          ["u1,i1,3", "u1,i1,2", "u2,i2,5", "u2,i3,7"] "als").fitInput.getD []) (0, 0) = 0 ∧
      (0 : ℚ) ≠ 5 := by
  have e3 : (recordOfLine "u1,i1,3").applies = ((3 : ℕ) : ℚ) := rfl
  have e2 : (recordOfLine "u1,i1,2").applies = ((2 : ℕ) : ℚ) := rfl
  have hfil : ([recordOfLine "u1,i1,3", recordOfLine "u1,i1,2", recordOfLine "u2,i2,5",
      recordOfLine "u2,i3,7"].filter (fun r => r.job = "i1" ∧ r.user = "u1"))
      = [recordOfLine "u1,i1,3", recordOfLine "u1,i1,2"] := rfl
  have hrun : (calculate_recommendations id (fun _ => true) (fun _ _ => [])
      ["u1,i1,3", "u1,i1,2", "u2,i2,5", "u2,i3,7"] "als").fitInput
      = some (tocsr (bm25_weight id 100 (4/5) (cooEntries
          [recordOfLine "u1,i1,3", recordOfLine "u1,i1,2", recordOfLine "u2,i2,5",
            recordOfLine "u2,i3,7"]))) := by
    simp [calculate_recommendations,
      show read_data ["u1,i1,3", "u1,i1,2", "u2,i2,5", "u2,i3,7"]
          = .ok [recordOfLine "u1,i1,3", recordOfLine "u1,i1,2", recordOfLine "u2,i2,5",
              recordOfLine "u2,i3,7"] from rfl,
      show get_model "als" = .ok ⟨.alternatingLeastSquares,
          [("factors", "64"), ("dtype", "float32"), ("use_gpu", "False")], none⟩ from rfl,
      isALSClass]
  have hcoo : cooEntries [recordOfLine "u1,i1,3", recordOfLine "u1,i1,2",
      recordOfLine "u2,i2,5", recordOfLine "u2,i3,7"]
      = [(0, 0, (recordOfLine "u1,i1,3").applies), (0, 0, (recordOfLine "u1,i1,2").applies),
         (1, 1, (recordOfLine "u2,i2,5").applies), (2, 1, (recordOfLine "u2,i3,7").applies)] :=
    rfl
  refine ⟨rfl, by decide, by decide, ?_, ?_, by norm_num⟩
  · rw [hfil]
    simp [e3, e2]
    norm_num
  · rw [hrun, Option.getD_some, valueAt_tocsr, hcoo]
    norm_num [bm25_weight, valueAt, pairKey, cooRows, List.filter_cons, List.filter_nil, id]

end Applies
